import Mathlib

/-!
Shallow embedding of the position state machine and trade ledger of the
Edge-Capital-Partners repository.

Batch side (src/clean_up_alert-main/main.py):
  `match_buys_and_sells_state_based`, `calculate_compounded_principle`, and the
  return aggregation of `create_alert_id_performance`.

Live side (src/edge-capital-partners-main/trade.py):
  `load_bot_trades`, `save_bot_trades`, `add_bot_trade`, `update_trade_status`,
  `close_bot_trade`, `get_bot_open_quantity`, `validate_bot_sell`.

Modelling conventions:
* Python floats are modelled as exact rationals (ℚ); `round(x, 2)` is modelled
  as exact round-half-to-even at two decimals (`round2`).
* A trade's `DateTime` sort key is a natural number of seconds; its `Date`
  string is modelled as `Option ℤ` (the parsed calendar-day ordinal, `none`
  when `datetime.strptime` would raise `ValueError`).
* Python's `list.sort` is a stable sort; `sortByTime` is Mathlib's insertion
  sort with the non-strict key comparison, which inserts an element before all
  later elements with an equal key and therefore computes the same permutation
  as any stable sort on the same key.
* File I/O is modelled by an explicit `FileStore` state plus a boolean `ioOk`
  parameter saying whether the underlying write raises; a raised-and-caught
  exception shows up as the `Bool`/`Except` value the function hands back.
-/

/-- The `Action` field of a parsed alert: `'Buy'` or `'Sell'`. -/
inductive Act where
  | buy
  | sell
deriving DecidableEq, Repr

/-- The `Outcome` field of a closed trade: `'Win'` or `'Loss'`. -/
inductive Outcome where
  | win
  | loss
deriving DecidableEq, Repr

/-- One parsed alert row, as consumed by `match_buys_and_sells_state_based`.
The metadata pass-through fields (`Strategy`, `Timeframe`, `Alert Name`) are
not modelled: the matcher copies them verbatim and no claim concerns them. -/
structure Trade where
  alertId : String
  ticker : String
  action : Act
  price : ℚ
  date : Option ℤ
  time : ℕ
deriving DecidableEq, Repr

/-- The `(Alert ID, Ticker)` grouping key (main.py line 317). -/
def tradeKey (t : Trade) : String × String := (t.alertId, t.ticker)

/-- Python's `round` to an integer: round half to even (banker's rounding),
expressed with the floor. -/
def roundHalfToEven (q : ℚ) : ℤ :=
  if q - ⌊q⌋ < 1/2 then ⌊q⌋
  else if 1/2 < q - ⌊q⌋ then ⌊q⌋ + 1
  else if ⌊q⌋ % 2 = 0 then ⌊q⌋ else ⌊q⌋ + 1

/-- Python's `round(x, 2)` on an exact rational. -/
def round2 (q : ℚ) : ℚ := (roundHalfToEven (q * 100) : ℚ) / 100

/-- The result dict built at main.py lines 396-410 when a Sell closes a Long
position (`status` is always the literal `'Closed'`, not modelled). -/
structure ClosedTrade where
  alertId : String
  ticker : String
  tradingDate : Option ℤ
  closingDate : Option ℤ
  openPrice : ℚ
  closingPrice : ℚ
  shares : ℕ
  cost : ℚ
  pnl : ℚ
  returnPct : ℚ
  daysInMarket : ℤ
  outcome : Outcome
deriving DecidableEq, Repr

/-- The open-position dict built at main.py lines 422-435 (metadata
pass-through fields again omitted). -/
structure OpenPosition where
  alertId : String
  ticker : String
  entryDate : Option ℤ
  entryPrice : ℚ
  shares : ℕ
  costBasis : ℚ
  daysHeld : ℤ
deriving DecidableEq, Repr

/-- `group_trades.sort(key=lambda x: x.get('DateTime', datetime.min))`
(main.py line 326): stable sort by the `DateTime` field. -/
def sortByTime (l : List Trade) : List Trade :=
  List.insertionSort (fun a b => a.time ≤ b.time) l

/-- Builds the ClosedTrade record of main.py lines 379-410 from the pending
open trade `e` and the closing sell `s`, for group key `k`. -/
def mkClosed (k : String × String) (e s : Trade) : ClosedTrade :=
  let cost : ℚ := e.price * 1
  let pnl : ℚ := (s.price - e.price) * 1
  let retPct : ℚ := if cost ≠ 0 then pnl / cost * 100 else 0
  { alertId := k.1
    ticker := k.2
    tradingDate := e.date
    closingDate := s.date
    openPrice := round2 e.price
    closingPrice := round2 s.price
    shares := 1
    cost := round2 cost
    pnl := round2 pnl
    returnPct := round2 retPct
    daysInMarket := match e.date, s.date with
      | some d1, some d2 => d2 - d1
      | _, _ => 0
    outcome := if retPct > 0 then Outcome.win else Outcome.loss }

/-- Builds the OpenPosition record of main.py lines 422-435; `now` is the
current time in seconds (`datetime.now()`), and `daysHeld` is the floor
division of the elapsed seconds (Python `timedelta.days`). -/
def mkOpen (now : ℕ) (k : String × String) (e : Trade) : OpenPosition :=
  { alertId := k.1
    ticker := k.2
    entryDate := e.date
    entryPrice := round2 e.price
    shares := 1
    costBasis := round2 e.price
    daysHeld := Int.fdiv ((now : ℤ) - (e.time : ℤ)) 86400 }

/-- Pairs each list element with its position, starting at `n`.  The position
identifies the event occurrence inside the sorted group: in the source the
pending `entry_trade` is one particular list element, and the index is the
name of that element. -/
def enumFrom {α : Type} : ℕ → List α → List (ℕ × α)
  | _, [] => []
  | n, x :: xs => (n, x) :: enumFrom (n + 1) xs

/-- The two-state machine of main.py lines 347-418, run from a given pending
open (`none` = flat, `some` = long) over the indexed remainder of the group.
Returns the emitted ClosedTrades — each tagged with the index of the event
that opened it — and the final pending open. -/
def smRun (k : String × String) :
    Option (ℕ × Trade) → List (ℕ × Trade) →
    List (ℕ × ClosedTrade) × Option (ℕ × Trade)
  | pending, [] => ([], pending)
  | pending, (i, t) :: rest =>
    match t.action, pending with
    | Act.buy, none => smRun k (some (i, t)) rest
    | Act.buy, some e => smRun k (some e) rest
    | Act.sell, none => smRun k none rest
    | Act.sell, some (j, e) =>
      let out := smRun k none rest
      ((j, mkClosed k e t) :: out.1, out.2)

/-- The per-group outputs of the matcher loop body (main.py lines 324-436). -/
structure GroupResult where
  closeds : List (ℕ × ClosedTrade)
  openPos : Option OpenPosition
  skippedSells : ℕ
  noBuyWarn : Bool
deriving DecidableEq, Repr

/-- The body of the matcher's per-group loop after the sort: find the first
Buy (main.py lines 329-338; none ⇒ warn and skip the group), drop everything
before it (line 345), and run the state machine (lines 347-436). -/
def processSorted (now : ℕ) (k : String × String) (sorted : List Trade) :
    GroupResult :=
  match sorted.findIdx? (fun t => t.action == Act.buy) with
  | none => { closeds := [], openPos := none, skippedSells := 0, noBuyWarn := true }
  | some i =>
    let out := smRun k none (enumFrom 0 (sorted.drop i))
    { closeds := out.1
      openPos := out.2.map (fun e => mkOpen now k e.2)
      skippedSells := i
      noBuyWarn := false }

/-- One iteration of the matcher's group loop: sort the group by `DateTime`
(main.py line 326), then process it. -/
def processGroup (now : ℕ) (k : String × String) (g : List Trade) : GroupResult :=
  processSorted now k (sortByTime g)

/-- Inserts a trade into the group association list exactly as the Python
`dict` of main.py lines 312-320 does: an existing key keeps its place and the
trade is appended to its group; a new key is appended at the end. -/
def addToGroups (gs : List ((String × String) × List Trade)) (t : Trade) :
    List ((String × String) × List Trade) :=
  match gs with
  | [] => [(tradeKey t, [t])]
  | (k, g) :: rest =>
    if k = tradeKey t then (k, g ++ [t]) :: rest
    else (k, g) :: addToGroups rest t

/-- `trade_groups` of main.py lines 312-320: group the input by
`(Alert ID, Ticker)` in first-seen key order. -/
def groupTrades (l : List Trade) : List ((String × String) × List Trade) :=
  l.foldl addToGroups []

/-- `match_buys_and_sells_state_based` (main.py lines 299-442): group the
input, then process the groups in order, concatenating the closed trades and
collecting the at-most-one open position per group.  The ℕ tag on each closed
trade is the ghost identity of its opening event inside its sorted group. -/
def match_buys_and_sells_state_based (now : ℕ) (trades : List Trade) :
    List (ℕ × ClosedTrade) × List OpenPosition :=
  let gs := groupTrades trades
  (gs.flatMap (fun kg => (processGroup now kg.1 kg.2).closeds),
   gs.filterMap (fun kg => (processGroup now kg.1 kg.2).openPos))

/-- The matcher's closed-trade output in its source shape (ghost indices
projected away). -/
def match_closed_records (now : ℕ) (trades : List Trade) : List ClosedTrade :=
  (match_buys_and_sells_state_based now trades).1.map Prod.snd

/-- `calculate_compounded_principle` (main.py lines 444-472), restricted to a
single Alert ID whose `Return(%)` column in chronological order is `returns`.
First component: the `Principle` column (the balance *before* each trade,
starting at 100000); second component: `current_principle` after the loop. -/
def calculate_compounded_principle (returns : List ℚ) : List ℚ × ℚ :=
  returns.foldl (fun acc r => (acc.1 ++ [acc.2], acc.2 * (1 + r / 100))) ([], 100000)

/-- `total_return = group_data['Return(%)'].sum()` (main.py line 829). -/
def total_return_pct (returns : List ℚ) : ℚ := returns.sum

/-- The compounded-return computation of `create_alert_id_performance`
(main.py lines 839-842): take the last row's `Principle`, apply the last
row's return once more, and compare with the 100000 base.  The `getLastD`
defaults are irrelevant: pandas `groupby` groups are nonempty. -/
def compounded_return_pct (returns : List ℚ) : ℚ :=
  let lastPrinciple := (calculate_compounded_principle returns).1.getLastD 100000
  let finalPrinciple := lastPrinciple * (1 + returns.getLastD 0 / 100)
  ((finalPrinciple - 100000) / 100000) * 100

/-- The `Total Return (%)` cell written to the performance row
(main.py line 893). -/
def total_return_field (returns : List ℚ) : ℚ := round2 (total_return_pct returns)

/-- The `Compounded Return (%)` cell written to the performance row
(main.py line 894). -/
def compounded_return_field (returns : List ℚ) : ℚ :=
  round2 (compounded_return_pct returns)

/-!  Live-side ledger (src/edge-capital-partners-main/trade.py). -/

/-- One entry of the `trades` array of `bot_trades.json`, as built by
`add_bot_trade` (trade.py lines 164-183).  `Option` fields are `none` while
the corresponding JSON key is absent; the `demo_mode` configuration echo is
not modelled. -/
structure LedgerEntry where
  order_id : String
  ticker : String
  action : String
  quantity : ℤ
  price : ℚ
  timestamp : ℕ
  email_source : String
  status : String
  sl_pct : Option ℚ
  tp_pct : Option ℚ
  is_closed : Bool
  closes_order_id : Option String
  closed_by_order_id : Option String
  completed_timestamp : Option ℕ
  closed_timestamp : Option ℕ
deriving DecidableEq, Repr

/-- One value of the `summary` mapping (trade.py line 189). -/
structure TickerSummary where
  open_quantity : ℤ
  total_buys : ℤ
  total_sells : ℤ
deriving DecidableEq, Repr

/-- The parsed content of `bot_trades.json`. -/
structure BotTradesData where
  trades : List LedgerEntry
  summary : List (String × TickerSummary)
deriving DecidableEq, Repr

/-- Association-list lookup, the model of a Python `dict` read (dicts here
hold each key at most once; first match wins). -/
def alookup {β : Type} : List (String × β) → String → Option β
  | [], _ => none
  | (k, v) :: rest, key => if k = key then some v else alookup rest key

/-- Association-list update of the first entry holding `key`. -/
def aupdate {β : Type} (f : β → β) : List (String × β) → String → List (String × β)
  | [], _ => []
  | (k, v) :: rest, key =>
    if k = key then (k, f v) :: rest else (k, v) :: aupdate f rest key

/-- State of one file slot on disk: absent, unparseable JSON, or good data. -/
inductive FileContent where
  | missing
  | corrupt
  | good (data : BotTradesData)
deriving DecidableEq, Repr

/-- The durable state: `bot_trades.json` and `bot_trades.json.backup`. -/
structure FileStore where
  canonical : FileContent
  backup : FileContent
deriving DecidableEq, Repr

/-- The fresh structure created when no file exists (trade.py lines 116-119). -/
def emptyBotTrades : BotTradesData := { trades := [], summary := [] }

/-- `load_bot_trades` (trade.py lines 102-134): read the canonical file;
a missing file yields the fresh structure; a corrupt file falls back to the
backup, and to the fresh structure when the backup is unusable too. -/
def load_bot_trades (fs : FileStore) : BotTradesData :=
  match fs.canonical with
  | FileContent.good d => d
  | FileContent.missing => emptyBotTrades
  | FileContent.corrupt =>
    match fs.backup with
    | FileContent.good d => d
    | _ => emptyBotTrades

/-- `save_bot_trades` (trade.py lines 136-156): copy the existing canonical
file to the backup, write a temp file, atomically rename it over the
canonical file; return `true` on success.  `ioOk` says whether the dump and
rename succeed; on failure the function returns `false` and the canonical
file is unchanged (the rename is the last step; a failure after the backup
copy may leave a refreshed backup behind, which no caller observes). -/
def save_bot_trades (fs : FileStore) (d : BotTradesData) (ioOk : Bool) :
    Bool × FileStore :=
  if ioOk then
    (true,
     { canonical := FileContent.good d
       backup := match fs.canonical with
         | FileContent.missing => fs.backup
         | c => c })
  else (false, fs)

/-- `get_oldest_open_buy` (trade.py lines 257-279): the oldest non-closed BUY
entry for `ticker` with status `filled` or `pending` (stable sort by
timestamp, head). -/
def get_oldest_open_buy (fs : FileStore) (ticker : String) : Option LedgerEntry :=
  let open_buys := (load_bot_trades fs).trades.filter fun t =>
    t.ticker = ticker && t.action = "BUY" && !t.is_closed &&
      (t.status = "filled" || t.status = "pending")
  (List.insertionSort (fun a b => a.timestamp ≤ b.timestamp) open_buys).head?

/-- The summary bump of `add_bot_trade` (trade.py lines 187-196): create the
ticker's summary if absent, then add the quantity to `total_buys` and
`open_quantity` for a BUY, or to `total_sells` and (negated) `open_quantity`
for a SELL. -/
def bumpSummary (s : List (String × TickerSummary)) (ticker upper : String)
    (q : ℤ) : List (String × TickerSummary) :=
  let s0 := match alookup s ticker with
    | none => s ++ [(ticker, { open_quantity := 0, total_buys := 0, total_sells := 0 })]
    | some _ => s
  if upper = "BUY" then
    aupdate (fun ts => { ts with total_buys := ts.total_buys + q,
                                 open_quantity := ts.open_quantity + q }) s0 ticker
  else
    aupdate (fun ts => { ts with total_sells := ts.total_sells + q,
                                 open_quantity := ts.open_quantity - q }) s0 ticker

/-- ASCII uppercase of one character (Python `str.upper` on the ASCII
strings used for actions). -/
def charUpper (c : Char) : Char :=
  if 97 ≤ c.toNat ∧ c.toNat ≤ 122 then Char.ofNat (c.toNat - 32) else c

/-- Python's `action.upper()`, written as a structural map over the
character list. -/
def strUpper (s : String) : String := ⟨s.data.map charUpper⟩

/-- `add_bot_trade` (trade.py lines 158-204): load, append the new entry
(linking a SELL to the oldest open buy), bump the summary, save.  The save's
boolean result is discarded (line 198) and every exception is caught and
logged (lines 203-204), so the caller-visible result is always `Except.ok ()`:
no failure is ever reported to the caller. -/
def add_bot_trade (fs : FileStore) (order_id ticker action : String)
    (quantity : ℤ) (price : ℚ) (sl_pct tp_pct : Option ℚ)
    (email_source : String) (now : ℕ) (ioOk : Bool) :
    Except String Unit × FileStore :=
  let d := load_bot_trades fs
  let upper := strUpper action
  let new_trade : LedgerEntry :=
    { order_id := order_id
      ticker := ticker
      action := upper
      quantity := quantity
      price := price
      timestamp := now
      email_source := email_source.take 100
      status := "pending"
      sl_pct := sl_pct
      tp_pct := tp_pct
      is_closed := false
      closes_order_id :=
        if upper = "SELL" then (get_oldest_open_buy fs ticker).map (·.order_id)
        else none
      closed_by_order_id := none
      completed_timestamp := none
      closed_timestamp := none }
  let d' : BotTradesData :=
    { trades := d.trades ++ [new_trade]
      summary := bumpSummary d.summary ticker upper quantity }
  (Except.ok (), (save_bot_trades fs d' ioOk).2)

/-- The loop of `update_trade_status` (trade.py lines 211-216): set the status
and completion time of the *first* entry whose `order_id` matches, then stop
(`break`). -/
def updateStatusList : List LedgerEntry → String → String → ℕ → List LedgerEntry
  | [], _, _, _ => []
  | e :: rest, oid, st, now =>
    if e.order_id = oid then
      { e with status := st, completed_timestamp := some now } :: rest
    else e :: updateStatusList rest oid st now

/-- `update_trade_status` (trade.py lines 206-221). -/
def update_trade_status (fs : FileStore) (order_id status : String) (now : ℕ)
    (ioOk : Bool) : FileStore :=
  let d := load_bot_trades fs
  let d' := { d with trades := updateStatusList d.trades order_id status now }
  (save_bot_trades fs d' ioOk).2

/-- The loop of `close_bot_trade` (trade.py lines 228-234): mark the *first*
BUY entry whose `order_id` matches as closed by `sell_oid`, then stop. -/
def closeTradeList : List LedgerEntry → String → String → ℕ → List LedgerEntry
  | [], _, _, _ => []
  | e :: rest, buy_oid, sell_oid, now =>
    if e.order_id = buy_oid ∧ e.action = "BUY" then
      { e with is_closed := true, closed_by_order_id := some sell_oid,
               closed_timestamp := some now } :: rest
    else e :: closeTradeList rest buy_oid sell_oid now

/-- `close_bot_trade` (trade.py lines 223-239). -/
def close_bot_trade (fs : FileStore) (sell_order_id buy_order_id : String)
    (now : ℕ) (ioOk : Bool) : FileStore :=
  let d := load_bot_trades fs
  let d' := { d with trades := closeTradeList d.trades buy_order_id sell_order_id now }
  (save_bot_trades fs d' ioOk).2

/-- `get_bot_open_quantity` (trade.py lines 241-255): the ticker's summary
`open_quantity` clamped at zero; 0 when the ticker has no summary (including
when loading degraded to the fresh structure). -/
def get_bot_open_quantity (fs : FileStore) (ticker : String) : ℤ :=
  match alookup (load_bot_trades fs).summary ticker with
  | some ts => max 0 ts.open_quantity
  | none => 0

/-- Message of trade.py line 290. -/
def msg_no_position (ticker : String) : String :=
  "SAFETY BLOCK: No position found for " ++ ticker

/-- Message of trade.py line 295. -/
def msg_not_long (ticker : String) (q : ℤ) : String :=
  "SAFETY BLOCK: Position for " ++ ticker ++ " is " ++ toString q ++ " (not long)"

/-- Message of trade.py line 300. -/
def msg_no_bot_position (ticker : String) : String :=
  "BOT PRECISION BLOCK: No bot open position for " ++ ticker

/-- Message of trade.py line 303 (source text has an apostrophe, omitted). -/
def msg_exceeds_bot (req bot : ℤ) (ticker : String) : String :=
  "BOT PRECISION BLOCK: Requested " ++ toString req ++ " > bots open " ++
    toString bot ++ " for " ++ ticker

/-- Message of trade.py line 308: the clamp report. -/
def msg_quantity_adjusted (v req : ℤ) : String :=
  "QUANTITY ADJUSTED: Selling " ++ toString v ++ " instead of " ++ toString req

/-- Message of trade.py line 311. -/
def msg_sell_validated (q : ℤ) (ticker : String) : String :=
  "SELL VALIDATED: Can safely sell " ++ toString q ++ " shares of " ++ ticker

/-- `validate_bot_sell` (trade.py lines 281-316).  `positions` is the broker's
reported position map (`fetch_open_positions`, an external collaborator,
passed as data). -/
def validate_bot_sell (positions : List (String × ℤ)) (fs : FileStore)
    (ticker : String) (requested_quantity : ℤ) : Bool × ℤ × String :=
  match alookup positions ticker with
  | none => (false, 0, msg_no_position ticker)
  | some position_qty =>
    if position_qty ≤ 0 then (false, 0, msg_not_long ticker position_qty)
    else
      let bot_open_qty := get_bot_open_quantity fs ticker
      if bot_open_qty ≤ 0 then (false, 0, msg_no_bot_position ticker)
      else if bot_open_qty < requested_quantity then
        (false, 0, msg_exceeds_bot requested_quantity bot_open_qty ticker)
      else if position_qty < requested_quantity then
        let validated := min requested_quantity (min position_qty bot_open_qty)
        (true, validated, msg_quantity_adjusted validated requested_quantity)
      else
        (true, requested_quantity, msg_sell_validated requested_quantity ticker)

/-! ### Invariants of the matcher (claim C1) -/

theorem enumFrom_fst_ge {α : Type} (n : ℕ) (l : List α) :
    ∀ p ∈ enumFrom n l, n ≤ p.1 := by
  induction l generalizing n with
  | nil => intro p hp; cases hp
  | cons x xs ih =>
    intro p hp
    rcases List.mem_cons.mp hp with rfl | h
    · exact Nat.le_refl n
    · exact Nat.le_of_succ_le (ih (n + 1) p h)

theorem enumFrom_pairwise {α : Type} (n : ℕ) (l : List α) :
    (enumFrom n l).Pairwise (fun a b => a.1 < b.1) := by
  induction l generalizing n with
  | nil => exact List.Pairwise.nil
  | cons x xs ih =>
    refine List.Pairwise.cons ?_ (ih (n + 1))
    intro p hp
    exact Nat.lt_of_lt_of_le (Nat.lt_succ_self n) (enumFrom_fst_ge (n + 1) xs p hp)

/-- Every index tagging an emitted ClosedTrade is the index of the initial
pending open or of some event in the processed list. -/
theorem smRun_closeds_idx_mem (k : String × String) :
    ∀ (p : Option (ℕ × Trade)) (l : List (ℕ × Trade)) (c : ℕ × ClosedTrade),
      c ∈ (smRun k p l).1 →
      (∃ q, p = some q ∧ c.1 = q.1) ∨ c.1 ∈ l.map Prod.fst := by
  intro p l
  induction l generalizing p with
  | nil => intro c hc; simp [smRun] at hc
  | cons it rest ih =>
    obtain ⟨i, t⟩ := it
    intro c hc
    cases ha : t.action with
    | buy =>
      cases p with
      | none =>
        simp only [smRun, ha] at hc
        rcases ih (some (i, t)) c hc with ⟨q, hq, hcq⟩ | hmem
        · cases hq; right; simp [hcq]
        · right; simp [List.map_cons]; right; simpa using hmem
      | some q =>
        simp only [smRun, ha] at hc
        rcases ih (some q) c hc with ⟨q', hq', hcq⟩ | hmem
        · cases hq'; exact Or.inl ⟨q, rfl, hcq⟩
        · right; simp [List.map_cons]; right; simpa using hmem
    | sell =>
      cases p with
      | none =>
        simp only [smRun, ha] at hc
        rcases ih none c hc with ⟨q, hq, _⟩ | hmem
        · cases hq
        · right; simp [List.map_cons]; right; simpa using hmem
      | some q =>
        obtain ⟨j, e⟩ := q
        simp only [smRun, ha] at hc
        rcases List.mem_cons.mp hc with rfl | hc'
        · exact Or.inl ⟨(j, e), rfl, rfl⟩
        · rcases ih none c hc' with ⟨q, hq, _⟩ | hmem
          · cases hq
          · right; simp [List.map_cons]; right; simpa using hmem

/-- The indices of the emitted ClosedTrades are strictly increasing: each
ClosedTrade consumes its opening event, so no two ClosedTrades ever share an
opening event. -/
theorem smRun_closeds_sorted (k : String × String) :
    ∀ (p : Option (ℕ × Trade)) (l : List (ℕ × Trade)),
      l.Pairwise (fun a b => a.1 < b.1) →
      (∀ e ∈ l, ∀ q, p = some q → q.1 < e.1) →
      (smRun k p l).1.Pairwise (fun a b => a.1 < b.1) := by
  intro p l
  induction l generalizing p with
  | nil => intro _ _; simp [smRun]
  | cons it rest ih =>
    obtain ⟨i, t⟩ := it
    intro hpw hp
    have hhead := (List.pairwise_cons.mp hpw).1
    have hpw' := (List.pairwise_cons.mp hpw).2
    cases ha : t.action with
    | buy =>
      cases p with
      | none =>
        simp only [smRun, ha]
        refine ih (some (i, t)) hpw' ?_
        intro e he q hq
        cases hq
        exact hhead e he
      | some q =>
        simp only [smRun, ha]
        refine ih (some q) hpw' ?_
        intro e he q' hq'
        injection hq' with h
        subst h
        exact hp e (List.mem_cons_of_mem _ he) q rfl
    | sell =>
      cases p with
      | none =>
        simp only [smRun, ha]
        refine ih none hpw' ?_
        intro e _ q hq
        cases hq
      | some q =>
        obtain ⟨j, e⟩ := q
        simp only [smRun, ha]
        refine List.Pairwise.cons ?_ (ih none hpw' (by intro e' _ q hq; cases hq))
        intro c hc
        rcases smRun_closeds_idx_mem k none rest c hc with ⟨q', hq', _⟩ | hmem
        · cases hq'
        · rcases List.mem_map.mp hmem with ⟨x, hx, hx1⟩
          have hji : j < i := hp (i, t) (List.mem_cons_self _ _) (j, e) rfl
          have hix : i < x.1 := hhead x hx
          exact hx1 ▸ Nat.lt_trans hji hix

/-- Every emitted ClosedTrade carries the group's key. -/
theorem smRun_closeds_key (k : String × String) :
    ∀ (p : Option (ℕ × Trade)) (l : List (ℕ × Trade)) (c : ℕ × ClosedTrade),
      c ∈ (smRun k p l).1 → c.2.alertId = k.1 ∧ c.2.ticker = k.2 := by
  intro p l
  induction l generalizing p with
  | nil => intro c hc; simp [smRun] at hc
  | cons it rest ih =>
    obtain ⟨i, t⟩ := it
    intro c hc
    cases ha : t.action with
    | buy =>
      cases p with
      | none => simp only [smRun, ha] at hc; exact ih (some (i, t)) c hc
      | some q => simp only [smRun, ha] at hc; exact ih (some q) c hc
    | sell =>
      cases p with
      | none => simp only [smRun, ha] at hc; exact ih none c hc
      | some q =>
        obtain ⟨j, e⟩ := q
        simp only [smRun, ha] at hc
        rcases List.mem_cons.mp hc with rfl | hc'
        · exact ⟨rfl, rfl⟩
        · exact ih none c hc'

theorem processGroup_closeds_sorted (now : ℕ) (k : String × String) (g : List Trade) :
    (processGroup now k g).closeds.Pairwise (fun a b => a.1 < b.1) := by
  unfold processGroup processSorted
  cases h : (sortByTime g).findIdx? (fun t => t.action == Act.buy) with
  | none => simp
  | some i =>
    simp only []
    exact smRun_closeds_sorted k none _ (enumFrom_pairwise 0 _)
      (by intro e _ q hq; cases hq)

theorem processGroup_closeds_key (now : ℕ) (k : String × String) (g : List Trade) :
    ∀ c ∈ (processGroup now k g).closeds, c.2.alertId = k.1 ∧ c.2.ticker = k.2 := by
  unfold processGroup processSorted
  cases h : (sortByTime g).findIdx? (fun t => t.action == Act.buy) with
  | none => simp
  | some i =>
    simp only []
    intro c hc
    exact smRun_closeds_key k none _ c hc

theorem processGroup_open_key (now : ℕ) (k : String × String) (g : List Trade) :
    ∀ o ∈ (processGroup now k g).openPos, o.alertId = k.1 ∧ o.ticker = k.2 := by
  unfold processGroup processSorted
  cases h : (sortByTime g).findIdx? (fun t => t.action == Act.buy) with
  | none => simp
  | some i =>
    simp only []
    intro o ho
    rcases Option.map_eq_some'.mp ho with ⟨e, _, rfl⟩
    exact ⟨rfl, rfl⟩

theorem addToGroups_fst_of_mem {gs : List ((String × String) × List Trade)}
    {t : Trade} (h : tradeKey t ∈ gs.map Prod.fst) :
    (addToGroups gs t).map Prod.fst = gs.map Prod.fst := by
  induction gs with
  | nil => simp at h
  | cons kg rest ih =>
    obtain ⟨k, g⟩ := kg
    by_cases hk : k = tradeKey t
    · simp [addToGroups, hk]
    · have h' : tradeKey t ∈ rest.map Prod.fst := by
        rcases List.mem_cons.mp h with heq | hm
        · exact absurd heq.symm hk
        · exact hm
      simp [addToGroups, hk, ih h']

theorem addToGroups_fst_of_not_mem {gs : List ((String × String) × List Trade)}
    {t : Trade} (h : tradeKey t ∉ gs.map Prod.fst) :
    (addToGroups gs t).map Prod.fst = gs.map Prod.fst ++ [tradeKey t] := by
  induction gs with
  | nil => simp [addToGroups]
  | cons kg rest ih =>
    obtain ⟨k, g⟩ := kg
    have hk : k ≠ tradeKey t := fun heq => h (by simp [heq])
    have h' : tradeKey t ∉ rest.map Prod.fst := fun hm => h (by simp [hm])
    simp [addToGroups, hk, ih h']

theorem addToGroups_fst_pairwise {gs : List ((String × String) × List Trade)}
    {t : Trade} (h : (gs.map Prod.fst).Pairwise (fun a b => a ≠ b)) :
    ((addToGroups gs t).map Prod.fst).Pairwise (fun a b => a ≠ b) := by
  by_cases hm : tradeKey t ∈ gs.map Prod.fst
  · rw [addToGroups_fst_of_mem hm]; exact h
  · rw [addToGroups_fst_of_not_mem hm]
    rw [List.pairwise_append]
    refine ⟨h, by simp, ?_⟩
    intro a ha b hb
    have hb' : b = tradeKey t := by simpa using hb
    subst hb'
    exact fun heq => hm (heq ▸ ha)

/-- The grouping dict holds each `(Alert ID, Ticker)` key exactly once. -/
theorem groupTrades_fst_pairwise (l : List Trade) :
    ((groupTrades l).map Prod.fst).Pairwise (fun a b => a ≠ b) := by
  have main : ∀ gs, (gs.map Prod.fst).Pairwise (fun a b => a ≠ b) →
      ((l.foldl addToGroups gs).map Prod.fst).Pairwise (fun a b => a ≠ b) := by
    induction l with
    | nil => intro gs h; exact h
    | cons t rest ih =>
      intro gs h
      exact ih _ (addToGroups_fst_pairwise h)
  exact main [] (by simp)

/-- C1: For every input event sequence, the Position Matcher never emits two
ClosedTrade records that share the same opening Buy event (two closed records
agreeing on strategy, ticker, and the index of the opening event inside the
group are the same record), and for every (strategy, ticker) key it leaves at
most one OpenPosition in its output. -/
theorem matcher_no_shared_open_unique_open_position (now : ℕ) (trades : List Trade) :
    ((match_buys_and_sells_state_based now trades).1.Pairwise
      (fun a b => ¬(a.2.alertId = b.2.alertId ∧ a.2.ticker = b.2.ticker ∧ a.1 = b.1))) ∧
    ((match_buys_and_sells_state_based now trades).2.Pairwise
      (fun a b => ¬(a.alertId = b.alertId ∧ a.ticker = b.ticker))) := by
  have hkeys := groupTrades_fst_pairwise trades
  rw [List.pairwise_map] at hkeys
  constructor
  · show ((groupTrades trades).flatMap
      (fun kg => (processGroup now kg.1 kg.2).closeds)).Pairwise _
    rw [List.pairwise_flatMap]
    constructor
    · intro kg _
      refine (processGroup_closeds_sorted now kg.1 kg.2).imp ?_
      intro a b hlt hshared
      exact absurd hshared.2.2 (Nat.ne_of_lt hlt)
    · refine hkeys.imp ?_
      intro a b hab x hx y hy hshared
      have hxk := processGroup_closeds_key now a.1 a.2 x hx
      have hyk := processGroup_closeds_key now b.1 b.2 y hy
      apply hab
      have h1 : a.1.1 = b.1.1 := by rw [← hxk.1, ← hyk.1]; exact hshared.1
      have h2 : a.1.2 = b.1.2 := by rw [← hxk.2, ← hyk.2]; exact hshared.2.1
      exact Prod.ext h1 h2
  · show ((groupTrades trades).filterMap
      (fun kg => (processGroup now kg.1 kg.2).openPos)).Pairwise _
    rw [List.pairwise_filterMap]
    refine hkeys.imp ?_
    intro a b hab x hx y hy hshared
    have hxk := processGroup_open_key now a.1 a.2 x hx
    have hyk := processGroup_open_key now b.1 b.2 y hy
    apply hab
    have h1 : a.1.1 = b.1.1 := by rw [← hxk.1, ← hyk.1]; exact hshared.1
    have h2 : a.1.2 = b.1.2 := by rw [← hxk.2, ← hyk.2]; exact hshared.2
    exact Prod.ext h1 h2

/-! ### Discarded invalid events (claims C3, C4) -/

/-- Scenario trade: Buy @100 at t=1 (claim C3). -/
def tB1 : Trade :=
  { alertId := "S1", ticker := "X", action := Act.buy, price := 100, date := some 1, time := 1 }

/-- Scenario trade: duplicate Buy @105 at t=2 (claim C3). -/
def tB2 : Trade :=
  { alertId := "S1", ticker := "X", action := Act.buy, price := 105, date := some 2, time := 2 }

/-- Scenario trade: Sell @110 at t=3 (claim C3). -/
def tS1 : Trade :=
  { alertId := "S1", ticker := "X", action := Act.sell, price := 110, date := some 3, time := 3 }

/-- C3: a Buy while Long and a Sell while Flat are discarded without altering
the state (same pending open, same Flat/Long state, identical continuation),
and on events [Buy @100 t=1, Buy @105 t=2, Sell @110 t=3] the matcher emits
exactly one ClosedTrade, built from the t=1 Buy and the t=3 Sell, ending
Flat (no OpenPosition). -/
theorem invalid_buy_sell_discarded :
    (∀ (k : String × String) (e : ℕ × Trade) (i : ℕ) (t : Trade)
        (rest : List (ℕ × Trade)), t.action = Act.buy →
        smRun k (some e) ((i, t) :: rest) = smRun k (some e) rest) ∧
    (∀ (k : String × String) (i : ℕ) (t : Trade) (rest : List (ℕ × Trade)),
        t.action = Act.sell →
        smRun k none ((i, t) :: rest) = smRun k none rest) ∧
    match_buys_and_sells_state_based 0 [tB1, tB2, tS1] =
      ([(0, { alertId := "S1", ticker := "X", tradingDate := some 1,
              closingDate := some 3, openPrice := 100, closingPrice := 110,
              shares := 1, cost := 100, pnl := 10, returnPct := 10,
              daysInMarket := 2, outcome := Outcome.win })], []) := by
  refine ⟨?_, ?_, ?_⟩
  · intro k e i t rest ht
    simp [smRun, ht]
  · intro k i t rest ht
    simp [smRun, ht]
  · simp [match_buys_and_sells_state_based, groupTrades, addToGroups, tradeKey,
      processGroup, processSorted, sortByTime, List.insertionSort,
      List.orderedInsert, smRun, enumFrom, mkClosed, tB1, tB2, tS1]
    norm_num [round2, roundHalfToEven]

/-- Witness for C3: the discard equations applied to the scenario's own
duplicate Buy (while Long) and to its Sell (while Flat). -/
theorem invalid_buy_sell_discarded_witness :
    smRun ("S1", "X") (some (0, tB1)) [(1, tB2)] =
      smRun ("S1", "X") (some (0, tB1)) [] ∧
    smRun ("S1", "X") none [(2, tS1)] = smRun ("S1", "X") none [] :=
  ⟨invalid_buy_sell_discarded.1 ("S1", "X") (0, tB1) 1 tB2 [] rfl,
   invalid_buy_sell_discarded.2.1 ("S1", "X") 2 tS1 [] rfl⟩

/-- C4: leading Sells (everything before the first Buy of the sorted group)
are discarded: they produce zero ClosedTrades and leave the outputs exactly
those of the remainder starting at the first Buy; a group with no Buy at all
yields no ClosedTrades and no OpenPosition, with the warning flag set. -/
theorem leading_sells_discarded :
    (∀ (now : ℕ) (k : String × String) (g sells rest : List Trade),
        sortByTime g = sells ++ rest →
        (∀ t ∈ sells, t.action = Act.sell) →
        (processGroup now k g).closeds = (processSorted now k rest).closeds ∧
        (processGroup now k g).openPos = (processSorted now k rest).openPos) ∧
    (∀ (now : ℕ) (k : String × String) (g : List Trade),
        (∀ t ∈ g, t.action = Act.sell) →
        (processGroup now k g).closeds = [] ∧
        (processGroup now k g).openPos = none ∧
        (processGroup now k g).noBuyWarn = true) := by
  constructor
  · intro now k g sells rest hsort hsells
    unfold processGroup
    rw [hsort]
    unfold processSorted
    have hfs : sells.findIdx? (fun t => t.action == Act.buy) = none :=
      List.findIdx?_eq_none_iff.mpr (fun t ht => by simp [hsells t ht])
    rw [List.findIdx?_append, hfs]
    cases hr : rest.findIdx? (fun t => t.action == Act.buy) with
    | none => simp
    | some m =>
      simp only [Option.map_some', Option.or_none, Option.none_or]
      rw [Nat.add_comm m sells.length, List.drop_append]
      exact ⟨rfl, rfl⟩
  · intro now k g h
    have h' : ∀ t ∈ sortByTime g, t.action = Act.sell := fun t ht =>
      h t ((List.perm_insertionSort _ g).subset ht)
    unfold processGroup processSorted
    rw [List.findIdx?_eq_none_iff.mpr (fun t ht => by simp [h' t ht])]
    exact ⟨rfl, rfl, rfl⟩

/-- Witness for C4: the leading-sell equations applied to a concrete group
[Sell @90 t=0, Buy @100 t=1] and to a concrete all-Sell group. -/
theorem leading_sells_discarded_witness :
    (processGroup 0 ("S1", "X")
        [{ alertId := "S1", ticker := "X", action := Act.sell, price := 90,
           date := some 0, time := 0 }, tB1]).closeds =
      (processSorted 0 ("S1", "X") [tB1]).closeds ∧
    (processGroup 0 ("S1", "X")
        [{ alertId := "S1", ticker := "X", action := Act.sell, price := 90,
           date := some 0, time := 0 }]).openPos = none := by
  constructor
  · exact (leading_sells_discarded.1 0 ("S1", "X") _
      [{ alertId := "S1", ticker := "X", action := Act.sell, price := 90,
         date := some 0, time := 0 }] [tB1]
      (by simp [sortByTime, List.insertionSort, List.orderedInsert, tB1])
      (by intro t ht; simp at ht; subst ht; rfl)).1
  · exact (leading_sells_discarded.2 0 ("S1", "X") _
      (by intro t ht; simp at ht; subst ht; rfl)).2.1

/-! ### ClosedTrade field formulas (claim C5) -/

/-- Scenario trade: Sell @110 at t=2 (claim C5). -/
def sS2 : Trade :=
  { alertId := "S1", ticker := "X", action := Act.sell, price := 110, date := some 2, time := 2 }

/-- Counterexample trade: Buy @3 at t=1. -/
def cB3 : Trade :=
  { alertId := "S1", ticker := "X", action := Act.buy, price := 3, date := some 1, time := 1 }

/-- Counterexample trade: Sell @4 at t=2. -/
def cS4 : Trade :=
  { alertId := "S1", ticker := "X", action := Act.sell, price := 4, date := some 2, time := 2 }

/-- Every ClosedTrade emitted by the state machine is `mkClosed` of some
event pair. -/
theorem smRun_closeds_mk (k : String × String) :
    ∀ (p : Option (ℕ × Trade)) (l : List (ℕ × Trade)) (c : ℕ × ClosedTrade),
      c ∈ (smRun k p l).1 → ∃ e s, c.2 = mkClosed k e s := by
  intro p l
  induction l generalizing p with
  | nil => intro c hc; simp [smRun] at hc
  | cons it rest ih =>
    obtain ⟨i, t⟩ := it
    intro c hc
    cases ha : t.action with
    | buy =>
      cases p with
      | none => simp only [smRun, ha] at hc; exact ih (some (i, t)) c hc
      | some q => simp only [smRun, ha] at hc; exact ih (some q) c hc
    | sell =>
      cases p with
      | none => simp only [smRun, ha] at hc; exact ih none c hc
      | some q =>
        obtain ⟨j, e⟩ := q
        simp only [smRun, ha] at hc
        rcases List.mem_cons.mp hc with rfl | hc'
        · exact ⟨e, t, rfl⟩
        · exact ih none c hc'

theorem processGroup_closeds_mk (now : ℕ) (k : String × String) (g : List Trade) :
    ∀ c ∈ (processGroup now k g).closeds, ∃ e s, c.2 = mkClosed k e s := by
  unfold processGroup processSorted
  cases h : (sortByTime g).findIdx? (fun t => t.action == Act.buy) with
  | none => simp
  | some i =>
    simp only []
    intro c hc
    exact smRun_closeds_mk k none _ c hc

/-- Counterexample to C5 as stated: on events [Buy @3 t=1, Sell @4 t=2] the
matcher emits one ClosedTrade whose stored `Return(%)` is the two-decimal
rounding 33.33, which differs from `pnl / open_price * 100 = 100/3`; the
stored fields are rounded, so the exact field equations of the claim fail. -/
theorem closed_trade_formulas_counterexample :
    match_closed_records 0 [cB3, cS4] =
      [{ alertId := "S1", ticker := "X", tradingDate := some 1,
         closingDate := some 2, openPrice := 3, closingPrice := 4, shares := 1,
         cost := 3, pnl := 1, returnPct := 3333/100, daysInMarket := 1,
         outcome := Outcome.win }] ∧
    ¬((3333 : ℚ)/100 = 1 / 3 * 100) := by
  constructor
  · simp [match_closed_records, match_buys_and_sells_state_based, groupTrades,
      addToGroups, tradeKey, processGroup, processSorted, sortByTime,
      List.insertionSort, List.orderedInsert, smRun, enumFrom, mkClosed,
      cB3, cS4]
    norm_num [round2, roundHalfToEven]
  · norm_num

/-- C5 as amended: every ClosedTrade emitted by the Matcher is built by
`mkClosed` from an open/close event pair, and `mkClosed` stores the claimed
quantities *rounded to two decimals*: `pnl = round2(close_price − open_price)`,
`return_pct = round2(pnl_exact / open_price * 100)`, `outcome = Win` exactly
when the unrounded return is positive, and `days_in_market` = calendar days
between open and close dates; the scenario [Buy @100 t=1, Sell @110 t=2]
yields exactly the ClosedTrade of the claim. -/
theorem closed_trade_formulas_amended :
    (∀ (k : String × String) (e s : Trade), e.price ≠ 0 →
        (mkClosed k e s).pnl = round2 (s.price - e.price) ∧
        (mkClosed k e s).returnPct = round2 ((s.price - e.price) / e.price * 100) ∧
        ((mkClosed k e s).outcome = Outcome.win ↔
          0 < (s.price - e.price) / e.price * 100) ∧
        ∀ d1 d2, e.date = some d1 → s.date = some d2 →
          (mkClosed k e s).daysInMarket = d2 - d1) ∧
    (∀ (now : ℕ) (trades : List Trade) (c : ClosedTrade),
        c ∈ match_closed_records now trades → ∃ k e s, c = mkClosed k e s) ∧
    match_closed_records 0 [tB1, sS2] =
      [{ alertId := "S1", ticker := "X", tradingDate := some 1,
         closingDate := some 2, openPrice := 100, closingPrice := 110,
         shares := 1, cost := 100, pnl := 10, returnPct := 10,
         daysInMarket := 1, outcome := Outcome.win }] := by
  refine ⟨?_, ?_, ?_⟩
  · intro k e s h
    refine ⟨by simp [mkClosed], by simp [mkClosed, h], ?_, ?_⟩
    · simp only [mkClosed, mul_one]
      rw [if_pos h]
      split_ifs with hpos
      · simpa using hpos
      · simp only [reduceCtorEq, false_iff]
        simpa using hpos
    · intro d1 d2 h1 h2
      simp [mkClosed, h1, h2]
  · intro now trades c hc
    simp only [match_closed_records, match_buys_and_sells_state_based] at hc
    rcases List.mem_map.mp hc with ⟨⟨i, c'⟩, hmem, rfl⟩
    rcases List.mem_flatMap.mp hmem with ⟨kg, _, hcg⟩
    rcases processGroup_closeds_mk now kg.1 kg.2 _ hcg with ⟨e, s, heq⟩
    exact ⟨kg.1, e, s, heq⟩
  · simp [match_closed_records, match_buys_and_sells_state_based, groupTrades,
      addToGroups, tradeKey, processGroup, processSorted, sortByTime,
      List.insertionSort, List.orderedInsert, smRun, enumFrom, mkClosed,
      tB1, sS2]
    norm_num [round2, roundHalfToEven]

/-- Witness for C5 (amended): the field laws applied at the scenario pair
Buy @100 / Sell @110, and the emitted-record decomposition applied to the
scenario's own output record. -/
theorem closed_trade_formulas_amended_witness :
    ((mkClosed ("S1", "X") tB1 sS2).returnPct =
        round2 ((sS2.price - tB1.price) / tB1.price * 100)) ∧
    ((mkClosed ("S1", "X") tB1 sS2).daysInMarket = 2 - 1) ∧
    (∃ k e s,
      ({ alertId := "S1", ticker := "X", tradingDate := some 1,
         closingDate := some 2, openPrice := 100, closingPrice := 110,
         shares := 1, cost := 100, pnl := 10, returnPct := 10,
         daysInMarket := 1, outcome := Outcome.win } : ClosedTrade) =
        mkClosed k e s) :=
  ⟨(closed_trade_formulas_amended.1 ("S1", "X") tB1 sS2 (by norm_num [tB1])).2.1,
   (closed_trade_formulas_amended.1 ("S1", "X") tB1 sS2
      (by norm_num [tB1])).2.2.2 1 2 rfl rfl,
   closed_trade_formulas_amended.2.1 0 [tB1, sS2] _
      (by rw [closed_trade_formulas_amended.2.2]; exact List.mem_singleton_self _)⟩

/-! ### Replay idempotence (claim C9) -/

/-- Counterexample trade: Buy @100 with the same timestamp as its Sell. -/
def rB : Trade :=
  { alertId := "S1", ticker := "X", action := Act.buy, price := 100, date := some 1, time := 5 }

/-- Counterexample trade: Sell @110 with the same timestamp as its Buy. -/
def rS : Trade :=
  { alertId := "S1", ticker := "X", action := Act.sell, price := 110, date := some 1, time := 5 }

/-- Counterexample to C9 as stated: when the opening Buy and closing Sell
carry the same timestamp, the stable sort keeps the duplicated input
interleaved as [Buy, Sell, Buy, Sell], and the matcher closes twice: the
replayed input yields two ClosedTrades, not the same single one. -/
theorem replay_idempotent_counterexample :
    (match_closed_records 0 [rB, rS, rB, rS]).length = 2 ∧
    (match_closed_records 0 [rB, rS]).length = 1 := by
  constructor
  · simp [match_closed_records, match_buys_and_sells_state_based, groupTrades,
      addToGroups, tradeKey, processGroup, processSorted, sortByTime,
      List.insertionSort, List.orderedInsert, smRun, enumFrom, rB, rS]
  · simp [match_closed_records, match_buys_and_sells_state_based, groupTrades,
      addToGroups, tradeKey, processGroup, processSorted, sortByTime,
      List.insertionSort, List.orderedInsert, smRun, enumFrom, rB, rS]

/-- C9 as amended: replaying the same open/close event pair through the
Matcher twice for one key yields exactly the output of processing the pair
once — a single ClosedTrade — provided the opening Buy's timestamp is
strictly earlier than the closing Sell's (with equal timestamps the
interleaved replay closes twice, see the counterexample). -/
theorem replay_idempotent_amended (now : ℕ) (b s : Trade)
    (hkey : tradeKey b = tradeKey s) (hb : b.action = Act.buy)
    (hs : s.action = Act.sell) (hlt : b.time < s.time) :
    match_buys_and_sells_state_based now [b, s, b, s] =
      match_buys_and_sells_state_based now [b, s] ∧
    match_closed_records now [b, s] = [mkClosed (tradeKey b) b s] := by
  have h1 : b.time ≤ s.time := Nat.le_of_lt hlt
  have h2 : ¬(s.time ≤ b.time) := Nat.not_le.mpr hlt
  have h3 : b.time ≤ b.time := Nat.le_refl _
  have h4 : s.time ≤ s.time := Nat.le_refl _
  constructor
  · simp [match_buys_and_sells_state_based, groupTrades, addToGroups, hkey,
      processGroup, processSorted, sortByTime, List.insertionSort,
      List.orderedInsert, h1, h2, h3, h4, hb, hs, smRun, enumFrom]
  · simp [match_closed_records, match_buys_and_sells_state_based, groupTrades,
      addToGroups, hkey, processGroup, processSorted, sortByTime,
      List.insertionSort, List.orderedInsert, h1, h2, h3, h4, hb, hs, smRun,
      enumFrom]

/-- Witness for C9 (amended): the idempotence equation at the concrete pair
Buy @100 t=1 / Sell @110 t=2. -/
theorem replay_idempotent_amended_witness :
    match_buys_and_sells_state_based 0 [tB1, sS2, tB1, sS2] =
      match_buys_and_sells_state_based 0 [tB1, sS2] ∧
    match_closed_records 0 [tB1, sS2] = [mkClosed (tradeKey tB1) tB1 sS2] :=
  replay_idempotent_amended 0 tB1 sS2 rfl rfl rfl (by decide)

/-! ### Compounded vs. total return (claim C6) -/

/-- The running balance of `calculate_compounded_principle` is the direct
compounding fold: starting at 100000 and multiplying by `(1 + r/100)` per
trade. -/
theorem calculate_compounded_principle_snd :
    ∀ (rs : List ℚ) (p : List ℚ × ℚ),
      (rs.foldl (fun acc r => (acc.1 ++ [acc.2], acc.2 * (1 + r / 100))) p).2 =
        rs.foldl (fun bal r => bal * (1 + r / 100)) p.2 := by
  intro rs
  induction rs with
  | nil => intro p; rfl
  | cons r rest ih => intro p; simpa using ih _

/-- C6: the Performance Aggregator's compounded return equals the direct
compounding of a 100000 base by `(1 + return_pct/100)` per ClosedTrade in
chronological order, a figure distinct from the simple sum of per-trade
returns; on returns [+10, -5] the principle sequence is [100000, 110000],
the final compounded balance is 104500, the Compounded Return cell is 4.5,
and the Total Return cell is 5. -/
theorem compounded_return_distinct_from_total (rs : List ℚ) (r : ℚ) :
    compounded_return_pct (rs ++ [r]) =
      ((List.foldl (fun bal x => bal * (1 + x / 100)) 100000 (rs ++ [r])
          - 100000) / 100000) * 100 ∧
    (calculate_compounded_principle [10, -5]).1 = [100000, 110000] ∧
    (calculate_compounded_principle [10, -5]).1.getLastD 100000 *
        (1 + ([10, -5] : List ℚ).getLastD 0 / 100) = 104500 ∧
    compounded_return_field [10, -5] = 45/10 ∧
    total_return_field [10, -5] = 5 ∧
    compounded_return_field [10, -5] ≠ total_return_field [10, -5] := by
  refine ⟨?_, ?_, ?_, ?_, ?_, ?_⟩
  · unfold compounded_return_pct calculate_compounded_principle
    rw [List.foldl_append, List.foldl_append]
    simp only [List.foldl_cons, List.foldl_nil, List.getLastD_concat]
    rw [calculate_compounded_principle_snd]
  · simp [calculate_compounded_principle]
    norm_num
  · simp [calculate_compounded_principle]
    norm_num
  · simp [compounded_return_field, compounded_return_pct,
      calculate_compounded_principle]
    norm_num [round2, roundHalfToEven]
  · simp [total_return_field, total_return_pct]
    norm_num [round2, roundHalfToEven]
  · simp [compounded_return_field, total_return_field, compounded_return_pct,
      total_return_pct, calculate_compounded_principle]
    norm_num [round2, roundHalfToEven]

/-! ### Sell-Safety Validator clamping (claim C2) and ledger open quantity
(claim C10) -/

/-- A store whose ledger reports 6 open units of "A". -/
def fsLedger6 : FileStore :=
  { canonical := FileContent.good
      { trades := []
        summary := [("A", { open_quantity := 6, total_buys := 6, total_sells := 0 })] }
    backup := FileContent.missing }

/-- A store whose ledger reports 10 open units of "A". -/
def fsLedger10 : FileStore :=
  { canonical := FileContent.good
      { trades := []
        summary := [("A", { open_quantity := 10, total_buys := 10, total_sells := 0 })] }
    backup := FileContent.missing }

/-- Counterexample to C2 as stated: broker position 5 and ledger open
quantity 6 are both strictly positive and the requested 8 exceeds the broker
position, yet the validator rejects (the precision check fires first because
the request also exceeds the ledger's open quantity) instead of approving
min(8, 5, 6) = 5. -/
theorem validator_clamp_counterexample :
    validate_bot_sell [("A", 5)] fsLedger6 "A" 8 =
      (false, 0, msg_exceeds_bot 8 6 "A") ∧
    (0 : ℤ) < 5 ∧ 0 < get_bot_open_quantity fsLedger6 "A" ∧ (5 : ℤ) < 8 := by
  decide

/-- C2 as amended: when the broker position and the ledger open quantity are
both strictly positive, the requested quantity exceeds the broker position,
and the requested quantity does *not* exceed the ledger open quantity, the
validator approves with
adjusted = min(requested, broker_position, ledger_open_quantity) and the
clamp-report reason. -/
theorem validator_clamp_amended (positions : List (String × ℤ)) (fs : FileStore)
    (ticker : String) (req p : ℤ)
    (hpos : alookup positions ticker = some p) (hp : 0 < p)
    (hq : 0 < get_bot_open_quantity fs ticker)
    (hreq : req ≤ get_bot_open_quantity fs ticker) (hclamp : p < req) :
    validate_bot_sell positions fs ticker req =
      (true, min req (min p (get_bot_open_quantity fs ticker)),
       msg_quantity_adjusted
         (min req (min p (get_bot_open_quantity fs ticker))) req) := by
  unfold validate_bot_sell
  rw [hpos]
  simp only [not_le.mpr hp, if_false, not_le.mpr hq, not_lt.mpr hreq,
    if_pos hclamp, if_neg (not_le.mpr hp), if_neg (not_le.mpr hq),
    if_neg (not_lt.mpr hreq)]

/-- Witness for C2 (amended): broker position 5, ledger open quantity 10,
requested 8 ⇒ approved with adjusted quantity 5 and the clamp reason. -/
theorem validator_clamp_amended_witness :
    validate_bot_sell [("A", 5)] fsLedger10 "A" 8 =
      (true, 5, msg_quantity_adjusted 5 8) := by
  rw [validator_clamp_amended [("A", 5)] fsLedger10 "A" 8 5 (by decide)
    (by decide) (by decide) (by decide) (by decide)]
  decide

/-- The store with no files at all. -/
def emptyStore : FileStore :=
  { canonical := FileContent.missing, backup := FileContent.missing }

/-- The store left by an accepted SELL of 5 units of "AAPL" on the empty
ledger: its stored summary open_quantity is -5. -/
def negStore : FileStore :=
  (add_bot_trade emptyStore "1" "AAPL" "SELL" 5 1 none none "m" 0 true).2

/-- C10: `get_bot_open_quantity` is never negative: it returns
max(0, stored open_quantity) when the ticker has a summary, and 0 when the
ticker is absent or both the canonical file and the backup are unreadable;
and an accepted sell exceeding prior buys really does drive the *stored*
summary negative (to -5 here) while the query still returns 0. -/
theorem open_quantity_clamped_nonneg :
    (∀ (fs : FileStore) (ticker : String), 0 ≤ get_bot_open_quantity fs ticker) ∧
    (∀ (fs : FileStore) (ticker : String) (ts : TickerSummary),
        alookup (load_bot_trades fs).summary ticker = some ts →
        get_bot_open_quantity fs ticker = max 0 ts.open_quantity) ∧
    (∀ (fs : FileStore) (ticker : String),
        alookup (load_bot_trades fs).summary ticker = none →
        get_bot_open_quantity fs ticker = 0) ∧
    (∀ ticker : String,
        get_bot_open_quantity
          { canonical := FileContent.corrupt, backup := FileContent.corrupt }
          ticker = 0) ∧
    alookup (load_bot_trades negStore).summary "AAPL" =
      some { open_quantity := -5, total_buys := 0, total_sells := 5 } ∧
    get_bot_open_quantity negStore "AAPL" = 0 := by
  refine ⟨?_, ?_, ?_, ?_, by decide, by decide⟩
  · intro fs ticker
    unfold get_bot_open_quantity
    cases h : alookup (load_bot_trades fs).summary ticker with
    | none => simp
    | some ts => simp
  · intro fs ticker ts h
    unfold get_bot_open_quantity
    rw [h]
  · intro fs ticker h
    unfold get_bot_open_quantity
    rw [h]
  · intro ticker
    simp [get_bot_open_quantity, load_bot_trades, emptyBotTrades, alookup]

/-- Witness for C10: the clamp equation at the driven-negative store, and the
absent-ticker equation at a ticker with no summary. -/
theorem open_quantity_clamped_nonneg_witness :
    get_bot_open_quantity negStore "AAPL" = max 0 (-5 : ℤ) ∧
    get_bot_open_quantity negStore "MSFT" = 0 :=
  ⟨open_quantity_clamped_nonneg.2.1 negStore "AAPL"
      { open_quantity := -5, total_buys := 0, total_sells := 5 } (by decide),
   open_quantity_clamped_nonneg.2.2.1 negStore "MSFT" (by decide)⟩

/-! ### Append failure semantics (claim C7) -/

/-- Counterexample to C7 as stated: with a failing durable write, the ledger
append leaves the store untouched, yet `add_bot_trade` hands its caller the
very same (exception-free, value-free) result as a successful append — the
I/O failure is logged and swallowed, not reported to the caller. -/
theorem append_failure_swallowed_counterexample :
    (add_bot_trade emptyStore "1" "AAPL" "BUY" 1 1 none none "m" 0 false).1 =
      (add_bot_trade emptyStore "1" "AAPL" "BUY" 1 1 none none "m" 0 true).1 ∧
    (add_bot_trade emptyStore "1" "AAPL" "BUY" 1 1 none none "m" 0 false).2 =
      emptyStore ∧
    (save_bot_trades emptyStore emptyBotTrades false).1 = false := by
  refine ⟨rfl, ?_, rfl⟩
  simp [add_bot_trade, save_bot_trades]

/-- C7 as amended: an I/O failure during `save_bot_trades` is reported to its
caller through the `false` return value and leaves the canonical store — and
hence the persisted per-ticker summary — unchanged; `add_bot_trade`, however,
swallows the failure: the store is still not advanced, but the caller always
receives the normal (exception-free) return. -/
theorem append_failure_amended (fs : FileStore) (d : BotTradesData)
    (oid tk act : String) (q : ℤ) (pr : ℚ) (sl tp : Option ℚ)
    (src : String) (now : ℕ) :
    save_bot_trades fs d false = (false, fs) ∧
    (add_bot_trade fs oid tk act q pr sl tp src now false).2 = fs ∧
    (add_bot_trade fs oid tk act q pr sl tp src now false).1 = Except.ok () := by
  refine ⟨?_, ?_, rfl⟩
  · simp [save_bot_trades]
  · simp [add_bot_trade, save_bot_trades]

/-! ### Monotonicity of MarkFilled and LinkClose (claim C8) -/

/-- A BUY ledger entry already marked Filled. -/
def filledEntry : LedgerEntry :=
  { order_id := "1", ticker := "AAPL", action := "BUY", quantity := 1,
    price := 1, timestamp := 0, email_source := "m", status := "filled",
    sl_pct := none, tp_pct := none, is_closed := false, closes_order_id := none,
    closed_by_order_id := none, completed_timestamp := none,
    closed_timestamp := none }

/-- A store holding exactly the Filled BUY entry. -/
def filledStore : FileStore :=
  { canonical := FileContent.good { trades := [filledEntry], summary := [] }
    backup := FileContent.missing }

/-- Counterexample to C8 as stated: `update_trade_status` called on an entry
whose status is already Filled does not leave it unchanged — it overwrites
the status with the new value ("pending" here), reverting Filled. -/
theorem mark_filled_monotonic_counterexample :
    filledEntry.status = "filled" ∧
    (load_bot_trades (update_trade_status filledStore "1" "pending" 7 true)).trades =
      [{ filledEntry with status := "pending", completed_timestamp := some 7 }] := by
  constructor
  · rfl
  · simp [update_trade_status, save_bot_trades, load_bot_trades, filledStore,
      updateStatusList, filledEntry]

/-- `update_trade_status` never touches any entry's `is_closed` flag. -/
theorem updateStatusList_is_closed :
    ∀ (l : List LedgerEntry) (oid st : String) (now : ℕ),
      (updateStatusList l oid st now).map (fun e => e.is_closed) =
        l.map (fun e => e.is_closed) := by
  intro l oid st now
  induction l with
  | nil => rfl
  | cons e rest ih =>
    by_cases h : e.order_id = oid
    · simp [updateStatusList, h]
    · simp [updateStatusList, h, ih]

/-- `close_bot_trade`'s loop only ever turns `is_closed` on, never off. -/
theorem closeTradeList_is_closed_mono :
    ∀ (l : List LedgerEntry) (boid soid : String) (now : ℕ),
      List.Forall₂ (fun a b => a = true → b = true)
        (l.map (fun e => e.is_closed))
        ((closeTradeList l boid soid now).map (fun e => e.is_closed)) := by
  intro l boid soid now
  induction l with
  | nil => simp [closeTradeList]
  | cons e rest ih =>
    by_cases h : e.order_id = boid ∧ e.action = "BUY"
    · simp only [closeTradeList, if_pos h, List.map_cons, List.forall₂_cons]
      exact ⟨fun _ => trivial, List.forall₂_same.mpr (fun x _ => id)⟩
    · simp only [closeTradeList, if_neg h, List.map_cons, List.forall₂_cons]
      exact ⟨id, ih⟩

/-- C8 as amended: once an entry's `is_closed` flag is true, neither
MarkFilled (`update_trade_status`) nor LinkClose (`close_bot_trade`) ever
resets it — `update_trade_status` leaves every `is_closed` flag exactly as it
was, and `close_bot_trade` only ever turns flags on.  (Neither operation is a
no-op on a Filled or closed entry: `update_trade_status` unconditionally
overwrites the matched entry's status — see the counterexample — and
`close_bot_trade` unconditionally overwrites `closed_by_order_id`.) -/
theorem mark_filled_link_close_amended (fs : FileStore)
    (oid st soid boid : String) (now : ℕ) :
    ((load_bot_trades (update_trade_status fs oid st now true)).trades.map
        (fun e => e.is_closed)) =
      ((load_bot_trades fs).trades.map (fun e => e.is_closed)) ∧
    List.Forall₂ (fun a b => a = true → b = true)
      ((load_bot_trades fs).trades.map (fun e => e.is_closed))
      ((load_bot_trades (close_bot_trade fs soid boid now true)).trades.map
        (fun e => e.is_closed)) := by
  constructor
  · have h1 : load_bot_trades (update_trade_status fs oid st now true) =
        { load_bot_trades fs with
          trades := updateStatusList (load_bot_trades fs).trades oid st now } := by
      simp [update_trade_status, save_bot_trades, load_bot_trades]
    rw [h1]
    exact updateStatusList_is_closed _ oid st now
  · have h2 : load_bot_trades (close_bot_trade fs soid boid now true) =
        { load_bot_trades fs with
          trades := closeTradeList (load_bot_trades fs).trades boid soid now } := by
      simp [close_bot_trade, save_bot_trades, load_bot_trades]
    rw [h2]
    exact closeTradeList_is_closed_mono _ boid soid now
